import Mathlib

/-!
Shallow embedding of the `pool` package (channel.go, conn.go, pool.go):
a bounded channel-based pool of network connections.

Modelling conventions:
* `net.Conn` becomes `Conn`: an id plus the outcome its `Close()` call
  returns (`none` = nil error).  The pool treats connections opaquely.
* The buffered channel `connCh chan net.Conn` becomes a FIFO list
  `connCh : List Conn` together with its fixed capacity `connChCap`
  (from `make(chan net.Conn, maxFree)`).
* `int64` fields (`maxConn`, `openNum`) become `Int`.
* A `context.Context` becomes the boolean `ctxDone`: whether the
  context's done signal fires (and wins the `select`) before the other
  branch is ready.  `context.Background()` never fires, i.e. `false`.
* The factory `func() (net.Conn, error)` becomes
  `Factory := Nat → Except GoError Conn`, applied to a running call
  counter so that distinct calls can return distinct results; the
  counter is threaded through the operations that invoke the factory.
* Each operation returns the updated pool together with the list of
  connections it called `Close()` on (paired with that close outcome),
  so that theorems can speak about which connections were closed.
* A Go call that blocks forever in the sequential semantics (a receive
  from an empty channel with no sender, a send to a full channel with
  no receiver) is the explicit outcome `blocked`.
-/

namespace Pool

/-- Errors of the package.  `errClosed` is `ErrClosed` ("pool is closed"),
`errTimeOut` is `ErrTimeOut` ("time out"), `invalidCapacity` is
`errors.New("invalid capacity settings")`, `nilConn` is
`errors.New("connection is nil. rejecting")`, `factoryFill e` is
`fmt.Errorf("factory is not able to fill the pool: %s", err)` wrapping the
underlying factory error, and `connCloseErr n` stands for an arbitrary
error returned by connection `n`'s `Close()`. -/
inductive GoError where
  | errClosed
  | errTimeOut
  | invalidCapacity
  | nilConn
  | factoryFill (underlying : GoError)
  | connCloseErr (id : Nat)
  deriving DecidableEq, Repr

/-- An opaque `net.Conn`: an identity and the result its `Close()` method
returns (`none` = nil error, `some e` = failing close). -/
structure Conn where
  id : Nat
  closeErr : Option GoError := none
  deriving DecidableEq, Repr

/-- `type Factory func() (net.Conn, error)`, indexed by a call counter. -/
def Factory := Nat → Except GoError Conn

/-- `type channelPool struct`: the channel `connCh` (contents plus its
capacity from `make(chan net.Conn, maxFree)`), the `closed` flag, the
`maxConn` cap (`<= 0` meaning no limit per the field's comment) and the
`openNum` counter.  The `factory` field is passed to the operations as an
explicit argument instead of being stored, and the mutex disappears in
this sequential semantics. -/
structure channelPool where
  connCh : List Conn
  connChCap : Nat
  closed : Bool
  maxConn : Int
  openNum : Int
  deriving DecidableEq, Repr

/-- `func (p *channelPool) Len() int { return len(p.connCh) }` -/
def channelPool.Len (p : channelPool) : Nat :=
  p.connCh.length

/-- `func (p *channelPool) OpenNum() int { return int(p.openNum) }` -/
def channelPool.OpenNum (p : channelPool) : Int :=
  p.openNum

/-- `func (p *channelPool) wrapConn(conn net.Conn) net.Conn`: wraps the
connection in a `PoolConn` which embeds it; the embedded `Close`
forwards to the underlying connection, so the wrapper is the identity on
the observable behaviour modelled here. -/
def channelPool.wrapConn (_p : channelPool) (conn : Conn) : Conn :=
  conn

/-- Result of an operation that may return a connection: either the
returned connection, a returned error, or blocking forever. -/
inductive GetOutcome where
  | ok (c : Conn)
  | err (e : GoError)
  | blocked
  deriving DecidableEq, Repr

/-- Result of `Put`/`PutWithContext`: a nil error, a non-nil error, or
blocking forever. -/
inductive PutOutcome where
  | ok
  | err (e : GoError)
  | blocked
  deriving DecidableEq, Repr

/-- A `Get` call's observable effect: its return value, the pool state it
leaves behind, and the factory call counter afterwards. -/
structure GetResult where
  outcome : GetOutcome
  pool : channelPool
  calls : Nat
  deriving DecidableEq, Repr

/-- A `Put` call's observable effect: its return value, the pool state it
leaves behind, and the connections it closed (with each close outcome). -/
structure PutResult where
  outcome : PutOutcome
  pool : channelPool
  closedConns : List (Conn × Option GoError)
  deriving DecidableEq, Repr

/-- A `Close` call's observable effect: the pool state it leaves behind
and the connections it closed (with each close outcome, which the code
ignores).  The Go method `func (p *channelPool) Close()` returns nothing. -/
structure CloseResult where
  pool : channelPool
  closedConns : List (Conn × Option GoError)
  deriving DecidableEq, Repr

/-- The drain loop of `Close`:
`for c := range p.connCh { _ = c.Close(); p.openNum-- }` —
closes every buffered connection ignoring the close outcome and
decrements `openNum` once per connection. -/
def drainLoop : List Conn → Int → List (Conn × Option GoError) →
    Int × List (Conn × Option GoError)
  | [], openNum, log => (openNum, log)
  | c :: rest, openNum, log => drainLoop rest (openNum - 1) (log ++ [(c, c.closeErr)])

/-- `func (p *channelPool) Close()`: if already closed, return (no
value); otherwise set `closed`, close the channel and drain it,
closing every buffered connection (ignoring errors) and decrementing
`openNum` for each. -/
def channelPool.Close (p : channelPool) : CloseResult :=
  if p.closed then
    ⟨p, []⟩
  else
    let d := drainLoop p.connCh p.openNum []
    ⟨{ p with closed := true, connCh := [], openNum := d.1 }, d.2⟩

/-- `func (p *channelPool) GetWitchContext(ctx context.Context) (net.Conn, error)`.
Under the lock: if `closed`, return `ErrClosed`.  If `len(p.connCh) > 0`
or (`maxConn > 0` and `openNum >= maxConn`), release the lock and
`select` between `ctx.Done()` (→ `ErrTimeOut`) and a receive from
`connCh` (→ the popped connection, wrapped); a receive with nothing
available blocks.  Otherwise call the factory under the lock: on error
return the factory's error unchanged, on success increment `openNum` and
return the new connection, wrapped. -/
def channelPool.GetWitchContext (p : channelPool) (ctxDone : Bool)
    (factory : Factory) (calls : Nat) : GetResult :=
  if p.closed then
    ⟨.err .errClosed, p, calls⟩
  else if 0 < p.connCh.length ∨ (0 < p.maxConn ∧ p.maxConn ≤ p.openNum) then
    if ctxDone then
      ⟨.err .errTimeOut, p, calls⟩
    else
      match p.connCh with
      | [] => ⟨.blocked, p, calls⟩
      | c :: rest => ⟨.ok (p.wrapConn c), { p with connCh := rest }, calls⟩
  else
    match factory calls with
    | .error e => ⟨.err e, p, calls + 1⟩
    | .ok conn => ⟨.ok (p.wrapConn conn),
        { p with openNum := p.openNum + 1 }, calls + 1⟩

/-- `func (p *channelPool) Get() (net.Conn, error)`: `GetWitchContext`
with `context.Background()`, whose done signal never fires. -/
def channelPool.Get (p : channelPool) (factory : Factory) (calls : Nat) : GetResult :=
  p.GetWitchContext false factory calls

/-- `func (p *channelPool) PutWithContext(ctx context.Context, conn net.Conn) error`.
A nil connection is rejected.  Under the lock: if `closed`, close the
connection, decrement `openNum` exactly when that close returns nil, and
return the close outcome.  Otherwise `select` between `ctx.Done()`
(→ `ErrTimeOut`) and a send of `conn` into `connCh` (→ nil); when the
buffer is full and the context never fires the send blocks forever
(while holding the lock). -/
def channelPool.PutWithContext (p : channelPool) (ctxDone : Bool)
    (conn : Option Conn) : PutResult :=
  match conn with
  | none => ⟨.err .nilConn, p, []⟩
  | some c =>
    if p.closed then
      match c.closeErr with
      | none => ⟨.ok, { p with openNum := p.openNum - 1 }, [(c, none)]⟩
      | some e => ⟨.err e, p, [(c, some e)]⟩
    else
      if ctxDone then
        ⟨.err .errTimeOut, p, []⟩
      else if p.connCh.length < p.connChCap then
        ⟨.ok, { p with connCh := p.connCh ++ [c] }, []⟩
      else
        ⟨.blocked, p, []⟩

/-- `func (p *channelPool) Put(conn net.Conn) error`: `PutWithContext`
with `context.Background()`, whose done signal never fires. -/
def channelPool.Put (p : channelPool) (conn : Option Conn) : PutResult :=
  p.PutWithContext false conn

/-- Result of `NewChannelPool`: the constructed pool or the returned
error, the number of factory calls made, and the connections closed by
the rollback `p.Close()` when an eager factory call fails. -/
structure NewResult where
  result : Except GoError channelPool
  factoryCalls : Nat
  rollbackClosed : List (Conn × Option GoError)
  deriving Repr

/-- The eager-fill loop of `NewChannelPool`:
`for i := 0; i < int(maxFree); i++ { conn, err := factory(); ... }`.
`remaining` counts the iterations left, `calls` is the factory call
counter, `acc` the connections pushed into `connCh` so far.  The struct
literal `&channelPool{connCh: ..., factory: factory}` assigns only
`connCh` and `factory`: the `maxConn` field is never assigned anywhere
in the constructor and stays at Go's zero value `0`, and `openNum` is
`0` during the loop and set to `maxFree` only after it.  On a factory
error the partially built pool is closed — draining and closing `acc` —
and construction fails with the wrapping error.  The `maxConn` argument
is validated by `NewChannelPool` and then dropped. -/
def fillLoop (factory : Factory) (maxFree _maxConn : Int) :
    Nat → Nat → List Conn → NewResult
  | 0, calls, acc =>
    ⟨.ok { connCh := acc, connChCap := maxFree.toNat, closed := false,
           maxConn := 0, openNum := maxFree }, calls, []⟩
  | remaining + 1, calls, acc =>
    match factory calls with
    | .error e =>
      let cr := channelPool.Close
        { connCh := acc, connChCap := maxFree.toNat, closed := false,
          maxConn := 0, openNum := 0 }
      ⟨.error (.factoryFill e), calls + 1, cr.closedConns⟩
    | .ok conn => fillLoop factory maxFree _maxConn remaining (calls + 1) (acc ++ [conn])

/-- `func NewChannelPool(maxFree, maxConn int64, factory Factory) (Pool, error)`:
reject `maxFree <= 0 || maxConn < 0 || maxFree > maxConn`, then eagerly
create `maxFree` connections. -/
def NewChannelPool (maxFree maxConn : Int) (factory : Factory) : NewResult :=
  if maxFree ≤ 0 ∨ maxConn < 0 ∨ maxConn < maxFree then
    ⟨.error .invalidCapacity, 0, []⟩
  else
    fillLoop factory maxFree maxConn maxFree.toNat 0 []

/-- An operation a client can perform on an existing pool (construction
aside): the argument of `get`/`put` is the modelled context, `put` also
carries the (possibly nil) connection being returned. -/
inductive Op where
  | get (ctxDone : Bool)
  | put (ctxDone : Bool) (conn : Option Conn)
  | close
  deriving DecidableEq, Repr

/-- A pool together with the factory call counter. -/
structure SysState where
  pool : channelPool
  calls : Nat
  deriving DecidableEq, Repr

/-- One client operation applied to the system state. -/
def step (factory : Factory) (s : SysState) : Op → SysState
  | .get d =>
    let r := s.pool.GetWitchContext d factory s.calls
    ⟨r.pool, r.calls⟩
  | .put d conn =>
    let r := s.pool.PutWithContext d conn
    ⟨r.pool, s.calls⟩
  | .close => ⟨s.pool.Close.pool, s.calls⟩

/-- A whole sequence of client operations. -/
def run (factory : Factory) (s : SysState) (ops : List Op) : SysState :=
  ops.foldl (step factory) s

/-! Concrete fixtures used by counterexamples and witnesses. -/

/-- A factory that always succeeds, producing connection `n` on call `n`. -/
def goodFactory : Factory := fun n => .ok ⟨n, none⟩

/-- The pool `NewChannelPool 1 1 goodFactory` builds: one idle
connection, buffer full at its capacity `1`, `maxConn` left at its zero
value `0` as in the Go constructor. -/
def pFull : channelPool :=
  { connCh := [⟨0, none⟩], connChCap := 1, closed := false, maxConn := 0, openNum := 1 }

/-- A surplus connection handed back to a full pool; its close succeeds. -/
def surplusConn : Conn := ⟨7, none⟩

/-- A non-closed pool whose first buffered connection fails to close and
whose second closes fine (as built by a factory producing such
connections). -/
def pBadDrain : channelPool :=
  { connCh := [⟨1, some (.connCloseErr 1)⟩, ⟨2, none⟩], connChCap := 2,
    closed := false, maxConn := 0, openNum := 2 }

/-- An already-shut-down pool: the pool `NewChannelPool 1 1 goodFactory`
builds, after `Close`. -/
def pShut : channelPool :=
  { connCh := [], connChCap := 1, closed := true, maxConn := 0, openNum := 0 }

/-! Helper lemmas about the drain loop and `Close`. -/

theorem drainLoop_spec (l : List Conn) : ∀ (n : Int) (log : List (Conn × Option GoError)),
    drainLoop l n log = (n - l.length, log ++ l.map fun c => (c, c.closeErr)) := by
  induction l with
  | nil => intro n log; simp [drainLoop]
  | cons c rest ih =>
    intro n log
    rw [drainLoop, ih, Prod.ext_iff]
    refine ⟨?_, by simp⟩
    simp
    ring

theorem Close_spec (p : channelPool) (h : p.closed = false) :
    p.Close = ⟨{ p with closed := true, connCh := [], openNum := p.openNum - p.connCh.length },
               p.connCh.map fun c => (c, c.closeErr)⟩ := by
  simp [channelPool.Close, h, drainLoop_spec]

theorem Close_of_closed (p : channelPool) (h : p.closed = true) : p.Close = ⟨p, []⟩ := by
  simp [channelPool.Close, h]

/-! Helper lemmas about the eager-fill loop of `NewChannelPool`. -/

theorem fillLoop_ok (f : Factory) (mf mc : Int) :
    ∀ (n calls : Nat) (acc : List Conn) (p : channelPool),
      (fillLoop f mf mc n calls acc).result = .ok p →
      p.openNum = mf ∧ p.connChCap = mf.toNat ∧ p.closed = false ∧ p.maxConn = 0 ∧
      p.connCh.length = acc.length + n ∧
      (fillLoop f mf mc n calls acc).factoryCalls = calls + n ∧
      (fillLoop f mf mc n calls acc).rollbackClosed = [] ∧
      (∀ j, j < acc.length → p.connCh[j]? = acc[j]?) ∧
      (∀ j, j < n → ∃ c, f (calls + j) = .ok c ∧ p.connCh[j + acc.length]? = some c) := by
  intro n
  induction n with
  | zero =>
    intro calls acc p hp
    rw [fillLoop] at hp
    simp only [Except.ok.injEq] at hp
    subst hp
    refine ⟨rfl, rfl, rfl, rfl, by simp, by simp [fillLoop], by simp [fillLoop], ?_, ?_⟩
    · intro j _
      rfl
    · intro j hj
      exact absurd hj (Nat.not_lt_zero j)
  | succ n ih =>
    intro calls acc p hp
    rw [fillLoop] at hp
    cases hf : f calls with
    | error e =>
      rw [hf] at hp
      simp at hp
    | ok c =>
      rw [hf] at hp
      obtain ⟨h1, h2, h3, h4, h5, h6, h7, h8, h9⟩ := ih (calls + 1) (acc ++ [c]) p hp
      refine ⟨h1, h2, h3, h4, ?_, ?_, ?_, ?_, ?_⟩
      · rw [h5]
        simp
        omega
      · rw [fillLoop, hf, h6]
        omega
      · rw [fillLoop, hf]
        exact h7
      · intro j hj
        rw [h8 j (by simp; omega)]
        exact List.getElem?_append_left hj
      · intro j hj
        match j with
        | 0 =>
          refine ⟨c, by simpa using hf, ?_⟩
          have hidx : 0 + acc.length = acc.length := by omega
          rw [hidx, h8 acc.length (by simp), List.getElem?_concat_length]
        | j' + 1 =>
          obtain ⟨c', hc1, hc2⟩ := h9 j' (by omega)
          refine ⟨c', ?_, ?_⟩
          · have : calls + 1 + j' = calls + (j' + 1) := by omega
            rwa [this] at hc1
          · have : j' + (acc ++ [c]).length = j' + 1 + acc.length := by simp; omega
            rwa [this] at hc2

theorem fillLoop_err (f : Factory) (mf mc : Int) :
    ∀ (n calls : Nat) (acc : List Conn) (err : GoError),
      (fillLoop f mf mc n calls acc).result = .error err →
      ∃ e k, err = .factoryFill e ∧ k < n ∧ f (calls + k) = .error e ∧
        (fillLoop f mf mc n calls acc).factoryCalls = calls + k + 1 ∧
        (fillLoop f mf mc n calls acc).rollbackClosed.length = acc.length + k ∧
        (∀ j, j < acc.length →
           (fillLoop f mf mc n calls acc).rollbackClosed[j]? =
             acc[j]?.map fun c => (c, c.closeErr)) ∧
        (∀ j, j < k → ∃ c, f (calls + j) = .ok c ∧
           (fillLoop f mf mc n calls acc).rollbackClosed[j + acc.length]? =
             some (c, c.closeErr)) := by
  intro n
  induction n with
  | zero =>
    intro calls acc err hp
    rw [fillLoop] at hp
    simp at hp
  | succ n ih =>
    intro calls acc err hp
    rw [fillLoop] at hp
    cases hf : f calls with
    | error e =>
      rw [hf] at hp
      simp only [Except.error.injEq] at hp
      have hcl : (channelPool.Close
          { connCh := acc, connChCap := mf.toNat, closed := false,
            maxConn := 0, openNum := 0 }).closedConns =
          acc.map fun c => (c, c.closeErr) := by
        rw [Close_spec _ rfl]
      refine ⟨e, 0, hp.symm, Nat.zero_lt_succ n, by simpa using hf, ?_, ?_, ?_, ?_⟩
      · rw [fillLoop, hf]
      · rw [fillLoop, hf]
        simpa using congrArg List.length hcl
      · intro j hj
        rw [fillLoop, hf]
        simp only
        rw [hcl, List.getElem?_map]
      · intro j hj
        exact absurd hj (Nat.not_lt_zero j)
    | ok c =>
      rw [hf] at hp
      obtain ⟨e, k, he, hk, hfe, hcalls, hlen, haccPart, hnewPart⟩ :=
        ih (calls + 1) (acc ++ [c]) err hp
      have hred : fillLoop f mf mc (n + 1) calls acc =
          fillLoop f mf mc n (calls + 1) (acc ++ [c]) := by
        rw [fillLoop, hf]
      refine ⟨e, k + 1, he, by omega, ?_, ?_, ?_, ?_, ?_⟩
      · have : calls + 1 + k = calls + (k + 1) := by omega
        rwa [this] at hfe
      · rw [hred, hcalls]
        omega
      · rw [hred, hlen]
        simp
        omega
      · intro j hj
        rw [hred, haccPart j (by simp; omega)]
        rw [List.getElem?_append_left hj]
      · intro j hj
        match j with
        | 0 =>
          refine ⟨c, by simpa using hf, ?_⟩
          rw [hred]
          have hidx : 0 + acc.length = acc.length := by omega
          rw [hidx, haccPart acc.length (by simp), List.getElem?_concat_length]
          rfl
        | j' + 1 =>
          obtain ⟨c', hc1, hc2⟩ := hnewPart j' (by omega)
          refine ⟨c', ?_, ?_⟩
          · have : calls + 1 + j' = calls + (j' + 1) := by omega
            rwa [this] at hc1
          · rw [hred]
            have : j' + (acc ++ [c]).length = j' + 1 + acc.length := by simp; omega
            rwa [this] at hc2

/-! Helper lemmas: no operation raises `openNum` above the cap. -/

theorem put_openNum_mono (p : channelPool) (d : Bool) (conn : Option Conn) :
    (p.PutWithContext d conn).pool.openNum ≤ p.openNum ∧
    (p.PutWithContext d conn).pool.maxConn = p.maxConn := by
  match conn with
  | none => exact ⟨le_refl _, rfl⟩
  | some c =>
    cases hc : p.closed with
    | true =>
      cases hce : c.closeErr with
      | none =>
        refine ⟨?_, ?_⟩ <;> simp [channelPool.PutWithContext, hc, hce]
      | some e =>
        refine ⟨?_, ?_⟩ <;> simp [channelPool.PutWithContext, hc, hce]
    | false =>
      cases d with
      | true => exact ⟨by simp [channelPool.PutWithContext, hc], by simp [channelPool.PutWithContext, hc]⟩
      | false =>
        by_cases hlen : p.connCh.length < p.connChCap <;>
          exact ⟨by simp [channelPool.PutWithContext, hc, hlen], by simp [channelPool.PutWithContext, hc, hlen]⟩

theorem get_openNum_bounded (p : channelPool) (d : Bool) (f : Factory) (ctr : Nat)
    (hm : 0 < p.maxConn) (h : p.openNum ≤ p.maxConn) :
    (p.GetWitchContext d f ctr).pool.openNum ≤ p.maxConn ∧
    (p.GetWitchContext d f ctr).pool.maxConn = p.maxConn := by
  cases hc : p.closed with
  | true => exact ⟨by simp [channelPool.GetWitchContext, hc]; exact h, by simp [channelPool.GetWitchContext, hc]⟩
  | false =>
    by_cases hw : 0 < p.connCh.length ∨ (0 < p.maxConn ∧ p.maxConn ≤ p.openNum)
    · cases d with
      | true => exact ⟨by simp [channelPool.GetWitchContext, hc, hw]; exact h, by simp [channelPool.GetWitchContext, hc, hw]⟩
      | false =>
        cases hch : p.connCh with
        | nil =>
          have hcap : 0 < p.maxConn ∧ p.maxConn ≤ p.openNum := by
            rcases hw with hl | hcap
            · rw [hch] at hl; simp at hl
            · exact hcap
          refine ⟨?_, ?_⟩ <;> simp [channelPool.GetWitchContext, hc, hch, hcap]
          exact h
        | cons a rest =>
          refine ⟨?_, ?_⟩ <;> simp [channelPool.GetWitchContext, hc, hw, hch]
          · exact h
    · have hlt : p.openNum < p.maxConn := by
        push_neg at hw
        exact hw.2 hm
      cases hf : f ctr with
      | error e => exact ⟨by simp [channelPool.GetWitchContext, hc, hw, hf]; exact h, by simp [channelPool.GetWitchContext, hc, hw, hf]⟩
      | ok c =>
        refine ⟨?_, ?_⟩ <;> simp [channelPool.GetWitchContext, hc, hw, hf]
        omega

theorem step_preserves (f : Factory) (s : SysState) (op : Op)
    (hm : 0 < s.pool.maxConn) (h : s.pool.openNum ≤ s.pool.maxConn) :
    (step f s op).pool.maxConn = s.pool.maxConn ∧
    (step f s op).pool.openNum ≤ s.pool.maxConn := by
  cases op with
  | get d =>
    have := get_openNum_bounded s.pool d f s.calls hm h
    exact ⟨this.2, this.1⟩
  | put d conn =>
    have := put_openNum_mono s.pool d conn
    exact ⟨this.2, le_trans this.1 h⟩
  | close =>
    simp only [step]
    cases hc : s.pool.closed with
    | true => rw [Close_of_closed _ hc]; exact ⟨rfl, h⟩
    | false =>
      rw [Close_spec _ hc]
      refine ⟨rfl, ?_⟩
      have hlen : (0 : Int) ≤ s.pool.connCh.length := Int.ofNat_nonneg _
      simp only
      omega

theorem run_preserves (f : Factory) (ops : List Op) :
    ∀ s : SysState, 0 < s.pool.maxConn → s.pool.openNum ≤ s.pool.maxConn →
      (run f s ops).pool.maxConn = s.pool.maxConn ∧
      (run f s ops).pool.openNum ≤ s.pool.maxConn := by
  induction ops with
  | nil => intro s _ h; exact ⟨rfl, h⟩
  | cons op rest ih =>
    intro s hm h
    obtain ⟨hmc, hle⟩ := step_preserves f s op hm h
    have hrun : run f s (op :: rest) = run f (step f s op) rest := rfl
    obtain ⟨ih1, ih2⟩ := ih (step f s op) (hmc ▸ hm) (hmc ▸ hle)
    rw [hrun]
    exact ⟨ih1.trans hmc, hmc ▸ ih2⟩

/-- C1, counterexample: in the non-closed pool `pFull` whose idle buffer
is full (`Len = connChCap = 1`), releasing the non-nil `surplusConn` does
NOT close it and does not return a close outcome: with a context that
fires it returns `ErrTimeOut` closing nothing and changing nothing, and
with the background context it blocks forever waiting for buffer space.
The claim's promised non-blocking close-the-surplus behaviour
(`outcome = ok`, `openNum` decremented) does not happen. -/
theorem C1_counterexample :
    pFull.closed = false ∧ pFull.connCh.length = pFull.connChCap ∧
    (pFull.PutWithContext true (some surplusConn)).outcome = .err .errTimeOut ∧
    (pFull.PutWithContext true (some surplusConn)).closedConns = [] ∧
    (pFull.PutWithContext true (some surplusConn)).pool = pFull ∧
    (pFull.PutWithContext false (some surplusConn)).outcome = .blocked ∧
    (pFull.PutWithContext false (some surplusConn)).closedConns = [] ∧
    (pFull.PutWithContext false (some surplusConn)).pool = pFull := by
  decide

/-- C1, amended: for every non-closed pool whose idle buffer is full,
Release of a non-nil connection never closes the surplus connection.
`PutWithContext` with a fired context returns `Timeout`, and `Put` (the
background context) blocks indefinitely; in both cases the connection is
not closed, `openNum` is unchanged and `Len()` stays at the buffer's
capacity. -/
theorem C1_put_full_blocks (p : channelPool) (c : Conn)
    (hcl : p.closed = false) (hfull : p.connChCap ≤ p.connCh.length) :
    p.PutWithContext true (some c) = ⟨.err .errTimeOut, p, []⟩ ∧
    p.PutWithContext false (some c) = ⟨.blocked, p, []⟩ := by
  constructor <;> simp [channelPool.PutWithContext, hcl, Nat.not_lt.mpr hfull]

/-- C1, witness for `C1_put_full_blocks` at `pFull`, `surplusConn`. -/
theorem C1_put_full_blocks_witness :
    pFull.PutWithContext true (some surplusConn) = ⟨.err .errTimeOut, pFull, []⟩ ∧
    pFull.PutWithContext false (some surplusConn) = ⟨.blocked, pFull, []⟩ :=
  C1_put_full_blocks pFull surplusConn (by decide) (by decide)

/-- C3, counterexample: shutting down `pBadDrain`, whose first buffered
connection's close fails, still drains and closes the second connection
and still decrements `openNum` for both (from 2 to 0): the drain does not
stop at the first failing close, no close outcome is consulted (the
result is discarded), and `Close` returns no error at all. -/
theorem C3_counterexample :
    pBadDrain.closed = false ∧
    pBadDrain.Close.closedConns =
      [(⟨1, some (.connCloseErr 1)⟩, some (.connCloseErr 1)), (⟨2, none⟩, none)] ∧
    pBadDrain.Close.pool.openNum = 0 ∧
    pBadDrain.Close.pool.connCh = [] := by
  decide

/-- C3, amended: during Shutdown's drain every connection buffered in
`idle` is closed with the close outcome ignored, and `openNum` is
decremented once per drained connection unconditionally; the drain never
stops early and Shutdown (`Close`) has no error return value. -/
theorem C3_drain_all (p : channelPool) (h : p.closed = false) :
    p.Close.closedConns = (p.connCh.map fun c => (c, c.closeErr)) ∧
    p.Close.pool.openNum = p.openNum - p.connCh.length ∧
    p.Close.pool.connCh = [] ∧ p.Close.pool.closed = true := by
  rw [Close_spec p h]
  exact ⟨rfl, rfl, rfl, rfl⟩

/-- C3, witness for `C3_drain_all` at `pBadDrain`. -/
theorem C3_drain_all_witness :
    pBadDrain.Close.closedConns = (pBadDrain.connCh.map fun c => (c, c.closeErr)) ∧
    pBadDrain.Close.pool.openNum = pBadDrain.openNum - pBadDrain.connCh.length ∧
    pBadDrain.Close.pool.connCh = [] ∧ pBadDrain.Close.pool.closed = true :=
  C3_drain_all pBadDrain (by decide)

/-- C4, counterexample: calling `Close` on the already-closed pool
`pShut` does not fail with `PoolClosed` — the Go method has no return
value at all — it returns immediately as a silent no-op, closing nothing
and leaving the pool unchanged. -/
theorem C4_counterexample :
    pShut.closed = true ∧ pShut.Close = ⟨pShut, []⟩ := by
  decide

/-- C4, amended: Shutdown is idempotent in effect rather than failing: a
second `Close` on an already-closed pool returns immediately (the method
has no error to return), closes no connection and changes no state. -/
theorem C4_close_idempotent (p : channelPool) (h : p.closed = true) :
    p.Close = ⟨p, []⟩ :=
  Close_of_closed p h

/-- C4, witness for `C4_close_idempotent` at `pShut`. -/
theorem C4_close_idempotent_witness : pShut.Close = ⟨pShut, []⟩ :=
  C4_close_idempotent pShut (by decide)

/-- C8: releasing a non-nil connection into a closed pool closes the
connection, decrements `openNum` exactly when that close succeeds,
returns the close outcome (nil on success), and never touches the idle
buffer, so `Len()` never increases after Shutdown. -/
theorem C8_put_closed_pool (p : channelPool) (c : Conn) (d : Bool)
    (h : p.closed = true) :
    (c.closeErr = none →
       p.PutWithContext d (some c) = ⟨.ok, { p with openNum := p.openNum - 1 }, [(c, none)]⟩) ∧
    (∀ e, c.closeErr = some e →
       p.PutWithContext d (some c) = ⟨.err e, p, [(c, some e)]⟩) ∧
    (p.PutWithContext d (some c)).closedConns = [(c, c.closeErr)] ∧
    (p.PutWithContext d (some c)).pool.connCh = p.connCh := by
  cases he : c.closeErr <;>
    simp [channelPool.PutWithContext, h, he]

/-- C8, witness for `C8_put_closed_pool`: a successful close at `pShut`. -/
theorem C8_put_closed_pool_witness :
    pShut.PutWithContext false (some surplusConn) =
      ⟨.ok, { pShut with openNum := pShut.openNum - 1 }, [(surplusConn, none)]⟩ :=
  (C8_put_closed_pool pShut surplusConn false (by decide)).1 (by decide)

/-- C9: an Acquire that takes the wait path (idle buffer non-empty, or
cap reached) and whose cancellation signal fires returns `Timeout` and
leaves the pool state and the factory call counter unchanged: `Len()` and
`OpenNum()` afterwards equal their values before, no connection is
created or consumed. -/
theorem C9_timeout_frame (p : channelPool) (f : Factory) (ctr : Nat)
    (hcl : p.closed = false)
    (hwait : 0 < p.connCh.length ∨ (0 < p.maxConn ∧ p.maxConn ≤ p.openNum)) :
    p.GetWitchContext true f ctr = ⟨.err .errTimeOut, p, ctr⟩ := by
  simp [channelPool.GetWitchContext, hcl, hwait]

/-- C9, witness for `C9_timeout_frame` at `pFull`. -/
theorem C9_timeout_frame_witness :
    pFull.GetWitchContext true goodFactory 1 = ⟨.err .errTimeOut, pFull, 1⟩ :=
  C9_timeout_frame pFull goodFactory 1 (by decide) (by decide)

/-- C5: on a non-closed pool, Acquire takes the wait path exactly when
the idle buffer is non-empty or the cap is reached (`maxConn > 0` and
`openNum ≥ maxConn`): there it never calls the factory, returns
`Timeout` when the cancellation signal fires, and otherwise pops the
first idle connection.  Otherwise it takes the create path: it calls the
factory exactly once, propagates a factory error unchanged with
`openNum` unmodified, and on success increments `openNum` and returns
the new connection. -/
theorem C5_get_paths (p : channelPool) (d : Bool) (f : Factory) (ctr : Nat)
    (hcl : p.closed = false) :
    ((0 < p.connCh.length ∨ (0 < p.maxConn ∧ p.maxConn ≤ p.openNum)) →
       (p.GetWitchContext d f ctr).calls = ctr ∧
       (d = true → p.GetWitchContext d f ctr = ⟨.err .errTimeOut, p, ctr⟩) ∧
       (d = false → ∀ c rest, p.connCh = c :: rest →
          p.GetWitchContext d f ctr = ⟨.ok (p.wrapConn c), { p with connCh := rest }, ctr⟩)) ∧
    (¬(0 < p.connCh.length ∨ (0 < p.maxConn ∧ p.maxConn ≤ p.openNum)) →
       (p.GetWitchContext d f ctr).calls = ctr + 1 ∧
       (∀ e, f ctr = .error e → p.GetWitchContext d f ctr = ⟨.err e, p, ctr + 1⟩) ∧
       (∀ c, f ctr = .ok c → p.GetWitchContext d f ctr =
          ⟨.ok (p.wrapConn c), { p with openNum := p.openNum + 1 }, ctr + 1⟩)) := by
  by_cases hw : 0 < p.connCh.length ∨ (0 < p.maxConn ∧ p.maxConn ≤ p.openNum)
  · refine ⟨fun _ => ⟨?_, ?_, ?_⟩, fun h2 => absurd hw h2⟩
    · cases d
      · cases hc : p.connCh with
        | nil =>
          have hcap : 0 < p.maxConn ∧ p.maxConn ≤ p.openNum := by
            rcases hw with hlen | hcap
            · rw [hc] at hlen; simp at hlen
            · exact hcap
          simp [channelPool.GetWitchContext, hcl, hc, hcap]
        | cons c rest => simp [channelPool.GetWitchContext, hcl, hw, hc]
      · simp [channelPool.GetWitchContext, hcl, hw]
    · intro hd; subst hd
      simp [channelPool.GetWitchContext, hcl, hw]
    · intro hd c rest hc; subst hd
      simp [channelPool.GetWitchContext, hcl, hw, hc]
  · refine ⟨fun hw2 => absurd hw2 hw, fun _ => ⟨?_, ?_, ?_⟩⟩
    · cases hf : f ctr <;> simp [channelPool.GetWitchContext, hcl, hw, hf]
    · intro e hf
      simp [channelPool.GetWitchContext, hcl, hw, hf]
    · intro c hf
      simp [channelPool.GetWitchContext, hcl, hw, hf]

/-- C5, witness for `C5_get_paths`: at `pFull` (idle non-empty) the wait
path pops the idle connection without calling the factory. -/
theorem C5_get_paths_witness :
    pFull.GetWitchContext false goodFactory 1 =
      ⟨.ok (pFull.wrapConn ⟨0, none⟩), { pFull with connCh := [] }, 1⟩ :=
  ((C5_get_paths pFull false goodFactory 1 (by decide)).1 (by decide)).2.2 rfl
    ⟨0, none⟩ [] (by decide)

/-- C2: the code rejects the `maxOpen = 0` ("unlimited") configuration
that the spec declares valid and that the `maxConn` field's own comment
(`<= 0` means no limit) and the `maxConn > 0` guard in
`GetWitchContext` document: `NewChannelPool 1 0` fails with
`invalid capacity settings` without calling the factory, because the
validation `maxFree > maxConn` is checked even when `maxConn = 0`. -/
theorem C2_unlimited_rejected :
    (NewChannelPool 1 0 goodFactory).result = .error .invalidCapacity ∧
    (NewChannelPool 1 0 goodFactory).factoryCalls = 0 ∧
    (NewChannelPool 1 0 goodFactory).rollbackClosed = [] :=
  ⟨rfl, rfl, rfl⟩

/-- The pool `NewChannelPool 1 2 goodFactory` constructs.  Note
`maxConn = 0`: the Go constructor's struct literal never assigns the
`maxConn` field, so the validated parameter `2` is dropped. -/
def c10Pool : channelPool :=
  { connCh := [⟨0, none⟩], connChCap := 1, closed := false, maxConn := 0, openNum := 1 }

/-- C10: releasing into a closed pool never checks that the connection
belongs to the pool.  Concretely: construct with `maxFree = 1`,
`maxConn = 2` (one connection live), acquire it, shut down (zero idle
connections drained, `openNum` still 1), release the checked-out
connection (`openNum` 0), then release a distinct foreign connection
`⟨9, none⟩` that the pool never created — its successful close also
decrements `openNum`, and `OpenNum()` returns `-1 < 0`. -/
theorem C10_negative_openNum :
    (NewChannelPool 1 2 goodFactory).result = .ok c10Pool ∧
    (NewChannelPool 1 2 goodFactory).factoryCalls = 1 ∧
    (run goodFactory ⟨c10Pool, 1⟩
       [.get false, .close, .put false (some ⟨0, none⟩),
        .put false (some ⟨9, none⟩)]).pool.OpenNum = -1 ∧
    (run goodFactory ⟨c10Pool, 1⟩
       [.get false, .close, .put false (some ⟨0, none⟩),
        .put false (some ⟨9, none⟩)]).pool.OpenNum < 0 :=
  ⟨rfl, rfl, rfl, by decide⟩

/-- C6, evaluated at the failing input: the constructor's struct literal
never assigns the `maxConn` field, so `NewChannelPool 1 2 goodFactory`
yields a pool with `maxConn = 0` and the cap guard in `GetWitchContext`
is never taken.  After the single idle connection is acquired, a second
and a third Acquire both take the create path — the third succeeding
with a fresh connection even though `openNum` already equals the
requested cap `2` — driving `OpenNum()` to `3 > 2 = maxOpen`.  The cap
the claim (and the repository's own `TestChannelPool_MaxConn`) promises
is not enforced. -/
theorem C6_cap_not_enforced :
    (NewChannelPool 1 2 goodFactory).result = .ok c10Pool ∧
    c10Pool.maxConn = 0 ∧
    ((run goodFactory ⟨c10Pool, 1⟩ [.get false, .get false]).pool.GetWitchContext false
        goodFactory (run goodFactory ⟨c10Pool, 1⟩ [.get false, .get false]).calls).outcome =
      .ok ⟨2, none⟩ ∧
    (run goodFactory ⟨c10Pool, 1⟩ [.get false, .get false, .get false]).pool.OpenNum = 3 ∧
    (2 : Int) < (run goodFactory ⟨c10Pool, 1⟩
      [.get false, .get false, .get false]).pool.OpenNum :=
  ⟨rfl, rfl, rfl, rfl, by decide⟩

/-- C7: when construction succeeds it has eagerly created exactly
`maxFree` connections via the factory — one per factory call, each
buffered in order — and yields `OpenNum() = maxFree` and
`Len() = maxFree`, closing nothing.  When an eager factory call fails,
construction fails with the wrapping `factoryFill` error whose
underlying error is exactly the factory's, and every connection created
so far (the successful calls preceding the failing one, in order) has
been close-attempted by the rollback. -/
theorem C7_eager_fill (maxFree maxConn : Int) (f : Factory) :
    (∀ p, (NewChannelPool maxFree maxConn f).result = .ok p →
        p.OpenNum = maxFree ∧ p.Len = maxFree.toNat ∧
        (NewChannelPool maxFree maxConn f).factoryCalls = maxFree.toNat ∧
        (NewChannelPool maxFree maxConn f).rollbackClosed = [] ∧
        (∀ j, j < maxFree.toNat → ∃ c, f j = .ok c ∧ p.connCh[j]? = some c)) ∧
    (∀ e, (NewChannelPool maxFree maxConn f).result = .error (.factoryFill e) →
        ∃ k, (NewChannelPool maxFree maxConn f).factoryCalls = k + 1 ∧
          f k = .error e ∧
          (NewChannelPool maxFree maxConn f).rollbackClosed.length = k ∧
          (∀ j, j < k → ∃ c, f j = .ok c ∧
             (NewChannelPool maxFree maxConn f).rollbackClosed[j]? =
               some (c, c.closeErr))) := by
  by_cases hv : maxFree ≤ 0 ∨ maxConn < 0 ∨ maxConn < maxFree
  · constructor
    · intro p hp
      rw [NewChannelPool, if_pos hv] at hp
      simp at hp
    · intro e he
      rw [NewChannelPool, if_pos hv] at he
      simp at he
  · have hnew : NewChannelPool maxFree maxConn f =
        fillLoop f maxFree maxConn maxFree.toNat 0 [] := by
      rw [NewChannelPool, if_neg hv]
    rw [hnew]
    constructor
    · intro p hp
      obtain ⟨h1, _, _, _, h5, h6, h7, _, h9⟩ :=
        fillLoop_ok f maxFree maxConn maxFree.toNat 0 [] p hp
      refine ⟨h1, ?_, by simpa using h6, h7, ?_⟩
      · rw [channelPool.Len, h5]
        simp
      · intro j hj
        obtain ⟨c, hc1, hc2⟩ := h9 j hj
        exact ⟨c, by simpa using hc1, by simpa using hc2⟩
    · intro e he
      obtain ⟨e', k, hee, _, hfk, hcalls, hlen, _, hnewPart⟩ :=
        fillLoop_err f maxFree maxConn maxFree.toNat 0 [] _ he
      have he' : e' = e := by
        cases hee
        rfl
      subst he'
      refine ⟨k, by simpa using hcalls, by simpa using hfk, by simpa using hlen, ?_⟩
      intro j hj
      obtain ⟨c, hc1, hc2⟩ := hnewPart j hj
      exact ⟨c, by simpa using hc1, by simpa using hc2⟩

/-- The pool `NewChannelPool 2 2 goodFactory` constructs (`maxConn`
left at its zero value, as in the Go constructor). -/
def pEager : channelPool :=
  { connCh := [⟨0, none⟩, ⟨1, none⟩], connChCap := 2, closed := false,
    maxConn := 0, openNum := 2 }

/-- C7, witness for `C7_eager_fill` at `maxFree = maxConn = 2` and a
factory that always succeeds. -/
theorem C7_eager_fill_witness :
    pEager.OpenNum = 2 ∧ pEager.Len = (2 : Int).toNat ∧
    (NewChannelPool 2 2 goodFactory).factoryCalls = (2 : Int).toNat ∧
    (NewChannelPool 2 2 goodFactory).rollbackClosed = [] :=
  have h := (C7_eager_fill 2 2 goodFactory).1 pEager rfl
  ⟨h.1, h.2.1, h.2.2.1, h.2.2.2.1⟩

end Pool
